import Mathlib

/-!
Verification development for `remote_term.py` (vdyc/remoteTerm), a
remote-controllable serial-console bridge.  The Python source is shallowly
embedded: every transform method becomes an executable Lean function over an
explicit state, Python string operations are modelled structurally over
`List Char`, fallible operations return `Except`, and external effects
(session-log writes, queue puts, console/menu actions) are reified as
explicit effect values returned alongside the result.
-/

set_option maxRecDepth 4096

/-! ## Python string primitives (modelled over `List Char`) -/

/-- View of a character list as a `String`. -/
def ofChars (cs : List Char) : String := String.mk cs

/-- Python `text.replace("\r\n", "\n")`: left-to-right, non-overlapping. -/
def replaceCRLFAux : List Char → List Char
  | [] => []
  | [c] => [c]
  | c1 :: c2 :: rest =>
    if c1 = '\r' ∧ c2 = '\n' then '\n' :: replaceCRLFAux rest
    else c1 :: replaceCRLFAux (c2 :: rest)

/-- Python `text.replace("\r\n", "\n")` on a `String`. -/
def replaceCRLF (s : String) : String := ofChars (replaceCRLFAux s.data)

/-- Python `text.endswith("\n")`. -/
def endsWithNL (s : String) : Bool := s.data.getLast? == some '\n'

/-- Python `text.startswith(p)`. -/
def pyStartsWith (p s : String) : Bool := p.data.isPrefixOf s.data

/-- Python `text[n:]` for a nonnegative `n`. -/
def pyDrop (n : Nat) (s : String) : String := ofChars (s.data.drop n)

/-- Python `text[:-1]` (here only used on nonempty line-terminated text,
where dropping the final character is the exact semantics). -/
def pyDropLast (s : String) : String := ofChars (s.data.dropLast)

/-- Python whitespace for `str.strip()` (the characters relevant here). -/
def isPySpace (c : Char) : Bool :=
  c == ' ' || c == '\t' || c == '\n' || c == '\r' || c == '\x0b' || c == '\x0c'

/-- Python `str.strip()`. -/
def pyStripChars (l : List Char) : List Char :=
  ((l.dropWhile isPySpace).reverse.dropWhile isPySpace).reverse

/-- Python `x[1:-1]`: drop the first and the last character. -/
def pySlice1Neg1 (l : List Char) : List Char := (l.drop 1).dropLast

/-- Accumulate a decimal digit string into a natural number. -/
def digitsVal (l : List Char) : Nat :=
  l.foldl (fun acc c => acc * 10 + (c.toNat - '0'.toNat)) 0

/-- Python `int(str)`: strips surrounding whitespace, accepts an optional
sign followed by a nonempty digit run, raises `ValueError` (here: `none`)
otherwise.  (Digit-group underscores and non-ASCII digits are not modelled;
no claim depends on them.) -/
def pyIntParse (s : String) : Option Int :=
  let l := pyStripChars s.data
  match l with
  | [] => none
  | '-' :: rest =>
    if !rest.isEmpty && rest.all Char.isDigit then some (-(digitsVal rest : Int)) else none
  | '+' :: rest =>
    if !rest.isEmpty && rest.all Char.isDigit then some ((digitsVal rest : Int)) else none
  | _ => if l.all Char.isDigit then some ((digitsVal l : Int)) else none

/-- Python `s.split("\n")` on the character list: always nonempty, keeps
empty pieces, so `"a\n"` splits into `["a", ""]`. -/
def splitNLChars : List Char → List (List Char)
  | [] => [[]]
  | c :: rest =>
    if c = '\n' then [] :: splitNLChars rest
    else
      match splitNLChars rest with
      | [] => [[c]]
      | l :: ls => (c :: l) :: ls

/-- Python `s.split("\n")` on a `String`. -/
def splitNL (s : String) : List String := (splitNLChars s.data).map ofChars

/-! ## Session log effects

`Alias` owns the session log file; its `rx`/`tx` methods write to it and
sometimes flush it.  The file operations are reified as a list of `LogOp`
effects emitted by each call. -/

/-- A side effect on the session log file. -/
inductive LogOp where
  | write (s : String)
  | flush
deriving DecidableEq

/-- The keyboard-origin marker used by `RemoteTerm.keyboard_input` and
recognised by `Alias.tx` (source literal `"kieny_"`). -/
def marker : String := "kieny_"

/-- The alias table `dict(config.items("ALIAS"))`, as an association list
(configparser keys are unique). -/
abbrev AliasDict := List (String × String)

/-- Python `text_strip in self.alias_dict.keys()` / `self.alias_dict[text_strip]`. -/
def aliasLookup (d : AliasDict) (k : String) : Option String :=
  match d.find? (fun p => p.1 == k) with
  | some p => some p.2
  | none => none

/-- `Alias.rx` (remote_term.py:49-53): writes the received text to the log,
flushes when the text contains a newline, returns the text unchanged. -/
def Alias.rx (text : String) : List LogOp × String :=
  (LogOp.write text :: (if text.data.contains '\n' then [LogOp.flush] else []), text)

/-- The text transformation of `Alias.tx` (remote_term.py:55-71):
normalises `"\r\n"` to `"\n"`; on a newline-terminated line, either strips
the keyboard marker and replaces a known alias name with backspaces plus
its expansion (or emits the bare terminator), or resolves a whole
network-origin line against the table. -/
def Alias.txText (dict : AliasDict) (text : String) : String :=
  let text := replaceCRLF text
  if endsWithNL text then
    if pyStartsWith marker text then
      let text2 := pyDrop 6 text
      let text_strip := pyDropLast text2
      let backspace_position := text_strip.data.length
      if backspace_position ≠ 0 then
        match aliasLookup dict text_strip with
        | some v => ofChars (List.replicate backspace_position '\x08') ++ v ++ "\n"
        | none => "\n"
      else "\n"
    else
      let text_strip := pyDropLast text
      match aliasLookup dict text_strip with
      | some v => v ++ "\n"
      | none => text
  else text

/-- `Alias.tx` (remote_term.py:55-73): the transformation above, then the
transformed text is written to the session log (line 72 — with no flush on
this path) and returned. -/
def Alias.tx (dict : AliasDict) (text : String) : List LogOp × String :=
  ([LogOp.write (Alias.txText dict text)], Alias.txText dict text)

/-- Which branch of `Alias.tx` a fragment takes: `raw` when the (normalised)
text is not newline-terminated, `keyboard` for marker-tagged lines,
`network` for plain whole lines. -/
inductive AliasTxPath where
  | raw
  | keyboard
  | network
deriving DecidableEq

/-- Branch discriminator for `Alias.tx`, mirroring its conditionals. -/
def Alias.txPath (text : String) : AliasTxPath :=
  let text := replaceCRLF text
  if endsWithNL text then
    if pyStartsWith marker text then AliasTxPath.keyboard else AliasTxPath.network
  else AliasTxPath.raw

/-! ## TeraTermCommandLine (the script transform)

Per-instance state (source class attributes `regex_awaiting`, `cur_line`,
`regex_match`).  Regex evaluation (`re.findall`) is external library code;
it is abstracted as a `matcher : String → String → Bool` parameter with
`matcher pattern line` modelling `len(re.findall(pattern, line)) > 0`.
Wall-clock time and the configuration read
`int(config.get("TERATERM_TTL", "regex_timeout_sec"))` are abstracted:
`timeout_cfg : Option Int` is the parsed configuration value (`none` when
`config.get`/`int` raises), and `matchDuringWait : Bool` is the value the
concurrent receive pass leaves in `regex_match` during the wait loop. -/

/-- The mutable state of one `TeraTermCommandLine` instance. -/
structure TeraTermState where
  regex_awaiting : String
  cur_line : String
  regex_match : Bool
deriving DecidableEq

/-- The receive-side scan loop of `TeraTermCommandLine.rx`
(remote_term.py:92-96): for each piece of the newline-split buffer, when the
pattern matches, set `regex_match` and clear `regex_awaiting`.  (After the
first match the source calls `re.findall("", line)`, which is always
nonempty and re-sets the already-set flags; any `matcher` value on the
empty pattern yields the same final state.) -/
def ttlRxLoop (matcher : String → String → Bool) :
    List String → String → Bool → String × Bool
  | [], aw, m => (aw, m)
  | line :: rest, aw, m =>
    if matcher aw line then ttlRxLoop matcher rest "" true
    else ttlRxLoop matcher rest aw m

/-- `TeraTermCommandLine.rx` (remote_term.py:82-97): accumulates the chunk
into `cur_line`; once a newline is present, splits the buffer, keeps the
trailing piece (empty when the chunk ended at a line boundary) as the new
buffer, and, when a pattern is pending, runs the scan loop over every piece
of the split.  Returns the chunk unchanged. -/
def TeraTermCommandLine.rx (matcher : String → String → Bool)
    (s : TeraTermState) (text : String) : TeraTermState × String :=
  let cur_line := s.cur_line ++ text
  if cur_line.data.contains '\n' then
    let new_line_started := !(endsWithNL cur_line)
    let lines := splitNL cur_line
    let cur' := if new_line_started then lines.getLastD "" else ""
    if s.regex_awaiting ≠ "" then
      let r := ttlRxLoop matcher lines s.regex_awaiting s.regex_match
      (⟨r.1, cur', r.2⟩, text)
    else
      (⟨s.regex_awaiting, cur', s.regex_match⟩, text)
  else
    (⟨s.regex_awaiting, cur_line, s.regex_match⟩, text)

/-- `ttl_send_command` (remote_term.py:100-106): `arg.strip()[1:-1]`.
(The `try` never fires: slicing a Python `str` cannot raise.) -/
def TeraTermCommandLine.ttl_send_command (arg : String) : String :=
  ofChars (pySlice1Neg1 (pyStripChars arg.data))

/-- `ttl_pause` (remote_term.py:108-111): `time.sleep(int(arg))`, with no
handler, so an unparsable (or negative) argument raises out of `tx`.  The
sleep itself has no effect on the modelled state. -/
def TeraTermCommandLine.ttl_pause (arg : String) : Except String String :=
  match pyIntParse arg with
  | some n => if n < 0 then Except.error "sleep length must be non-negative" else Except.ok ""
  | none => Except.error "invalid literal for int() with base 10"

/-- `ttl_wait_regex` (remote_term.py:113-127): installs `arg.strip()[1:-1]`
as the pending pattern, then polls `regex_match` until it is set or the
configured timeout elapses, clears both flags, and returns `""` (the
`finally` clause).  When reading/parsing the timeout configuration raises
(`timeout_cfg = none`), the loop body raises on its first iteration and
the `except` branch skips the two clearing assignments, so the wait itself
mutates nothing further: if the receive pass matched during the first
sleep (`matchDuringWait`) the state is whatever `rx` left (`regex_match`
set — and still set for the next wait — with `rx` having cleared the
pattern); otherwise the freshly installed pattern stays pending. -/
def TeraTermCommandLine.ttl_wait_regex (s : TeraTermState) (arg : String)
    (timeout_cfg : Option Int) (matchDuringWait : Bool) : TeraTermState × String :=
  let r := ofChars (pySlice1Neg1 (pyStripChars arg.data))
  let s1 : TeraTermState := ⟨r, s.cur_line, s.regex_match⟩
  if s1.regex_match then (⟨"", s1.cur_line, false⟩, "")
  else
    match timeout_cfg with
    | some _ => (⟨"", s1.cur_line, false⟩, "")
    | none =>
      if matchDuringWait then (⟨"", s1.cur_line, true⟩, "")
      else (⟨r, s1.cur_line, false⟩, "")

/-- `TeraTermCommandLine.tx` (remote_term.py:99-139): literal command-name
matching against the table `{"sendln ", "pause ", "waitregex"}` (the keys
have pairwise incompatible first characters, so at most one matches and the
source's fold over the dict equals this conditional chain).  Only the
`pause` branch can raise. -/
def TeraTermCommandLine.tx (s : TeraTermState) (text : String)
    (timeout_cfg : Option Int) (matchDuringWait : Bool) :
    Except String (TeraTermState × String) :=
  if pyStartsWith "sendln " text then
    Except.ok (s, TeraTermCommandLine.ttl_send_command (pyDrop 7 text))
  else if pyStartsWith "pause " text then
    (TeraTermCommandLine.ttl_pause (pyDrop 6 text)).map (fun r => (s, r))
  else if pyStartsWith "waitregex" text then
    Except.ok (TeraTermCommandLine.ttl_wait_regex s (pyDrop 9 text) timeout_cfg matchDuringWait)
  else
    Except.ok (s, text)

/-! ## RemoteTerm -/

/-- One entry of a transformation chain: `cls` is the transformation class
name, `instId` identifies the instance created by `t()` — two list entries
denote the same Python object exactly when their `instId`s agree. -/
structure TransformInstance where
  instId : Nat
  cls : String
deriving DecidableEq

/-- `RemoteTerm.update_transformations` (remote_term.py:160-164): builds
`[EOL_TRANSFORMATIONS[self.eol]] + [TRANSFORMATIONS[f] for f in filters]`,
instantiates each class once into `tx_transformations`, and sets
`rx_transformations = list(reversed(self.tx_transformations))` — a reversed
view over the same instances, built once during `__init__`.  Fresh
instantiation is modelled by giving each `t()` call a distinct `instId`. -/
def RemoteTerm.update_transformations (eol : String) (filters : List String) :
    List TransformInstance × List TransformInstance :=
  let classes := eol :: filters
  let tx_transformations := classes.enum.map (fun p => TransformInstance.mk p.1 p.2)
  (tx_transformations, tx_transformations.reverse)

/-- One iteration of `RemoteTerm.socket_input` (remote_term.py:166-176):
for a received message (already ASCII-decoded to `payload`), the enqueued
fragment and the reply sent back to the client. -/
def RemoteTerm.socket_input_step (payload : String) : String × String :=
  (payload ++ "\n", "In queue")

/-- The keyboard listener's loop state: the line being assembled (seeded
with the marker) and whether the previous key was the menu character. -/
structure KeyboardState where
  command_in : String
  menu_active : Bool
deriving DecidableEq

/-- An externally visible action of the keyboard listener. -/
inductive KeyEffect where
  | handleMenuKey (c : Char)
  | exitApp
  | enqueue (s : String)
deriving DecidableEq

/-- One iteration of `RemoteTerm.keyboard_input` (remote_term.py:182-201):
the key is always appended to `command_in` first; then it is consumed by
the menu, arms the menu, exits the application, flushes the assembled
marker line on `"\r"`/`"\n"`, or is enqueued on its own. -/
def RemoteTerm.keyboard_step (menu_character exit_character : Char)
    (s : KeyboardState) (key_in : Char) : KeyboardState × List KeyEffect :=
  let command_in := s.command_in ++ ofChars [key_in]
  if s.menu_active then
    (⟨command_in, false⟩, [KeyEffect.handleMenuKey key_in])
  else if key_in = menu_character then
    (⟨command_in, true⟩, [])
  else if key_in = exit_character then
    (⟨command_in, false⟩, [KeyEffect.exitApp])
  else if key_in = '\r' ∨ key_in = '\n' then
    (⟨"kieny_", false⟩, [KeyEffect.enqueue command_in])
  else
    (⟨command_in, false⟩, [KeyEffect.enqueue (ofChars [key_in])])

/-- The receive-pipeline fold of `RemoteTerm.reader` (remote_term.py:218-224):
each transform's `rx` is run inside its own `try`; on an exception the
diagnostic is printed and the text that was passed to the failing transform
flows on to the next one unmodified.  Returns the text finally written to
the console together with the printed diagnostics (in print order). -/
def RemoteTerm.readerApplyRx :
    List (String → Except String String) → String → String × List String
  | [], text => (text, [])
  | t :: rest, text =>
    match t text with
    | Except.ok text2 => RemoteTerm.readerApplyRx rest text2
    | Except.error e =>
      let r := RemoteTerm.readerApplyRx rest text
      (r.1, ("Unable to handle string: " ++ text ++ " \n" ++ e) :: r.2)

/-- The transmit-pipeline fold of `RemoteTerm.writer` (remote_term.py:240-241):
no per-transform handler, so the first exception propagates. -/
def RemoteTerm.writer_apply_tx :
    List (String → Except String String) → String → Except String String
  | [], text => Except.ok text
  | t :: rest, text =>
    match t text with
    | Except.ok text2 => RemoteTerm.writer_apply_tx rest text2
    | Except.error e => Except.error e

/-- One dequeue iteration of `RemoteTerm.writer` (remote_term.py:232-250):
on success the transformed text is written to the serial port and the loop
continues with `alive` unchanged; on an exception the bare `except` sets
`self.alive = False` and re-raises, terminating the worker, so nothing is
written and the loop does not continue. -/
def RemoteTerm.writer_step (alive : Bool)
    (txs : List (String → Except String String)) (fragment : String) :
    Bool × Option String :=
  match RemoteTerm.writer_apply_tx txs fragment with
  | Except.ok out => (alive, some out)
  | Except.error _ => (false, none)

/-- A transmit chain holding a single `TeraTermCommandLine` transform. -/
def ttlOnlyTx (s : TeraTermState) (cfg : Option Int) (m : Bool) :
    String → Except String String :=
  fun text => (TeraTermCommandLine.tx s text cfg m).map Prod.snd

/-! ## Helper lemmas -/

/-- `replaceCRLFAux` is the identity on carriage-return-free text. -/
theorem replaceCRLFAux_eq_self : ∀ (l : List Char), '\r' ∉ l → replaceCRLFAux l = l
  | [], _ => rfl
  | [_], _ => rfl
  | c1 :: c2 :: rest, h => by
    have h1 : c1 ≠ '\r' := by
      intro hc
      exact h (hc ▸ List.mem_cons_self _ _)
    have h2 : '\r' ∉ c2 :: rest := fun hm => h (List.mem_cons_of_mem c1 hm)
    have hcond : ¬(c1 = '\r' ∧ c2 = '\n') := fun hc => h1 hc.1
    simp only [replaceCRLFAux, if_neg hcond]
    rw [replaceCRLFAux_eq_self (c2 :: rest) h2]

/-- `replaceCRLF` is the identity on carriage-return-free strings. -/
theorem replaceCRLF_eq_self (s : String) (h : '\r' ∉ s.data) : replaceCRLF s = s := by
  show String.mk (replaceCRLFAux s.data) = s
  rw [replaceCRLFAux_eq_self s.data h]

/-- A list is a (boolean) prefix of itself followed by anything. -/
theorem isPrefixOf_self_append (p r : List Char) : p.isPrefixOf (p ++ r) = true := by
  induction p with
  | nil => simp
  | cons a as ih => simp [List.isPrefixOf_cons₂, ih]

/-- Appending one character that does not occur in `p` cannot make `p` a
(boolean) prefix. -/
theorem isPrefixOf_append_singleton_false (p l : List Char) (x : Char)
    (hx : x ∉ p) (h : p.isPrefixOf l = false) : p.isPrefixOf (l ++ [x]) = false := by
  induction p generalizing l with
  | nil => simp at h
  | cons a as ih =>
    cases l with
    | nil =>
      simp only [List.nil_append]
      cases as with
      | nil =>
        simp only [List.isPrefixOf_cons₂, List.isPrefixOf_nil_left, Bool.and_true]
        have hxa : x ≠ a := by
          simp only [List.mem_cons, not_or] at hx
          exact hx.1
        simp only [beq_eq_false_iff_ne, Ne]
        exact fun hax => hxa hax.symm
      | cons b bs => simp [List.isPrefixOf_cons₂]
    | cons b bs =>
      simp only [List.cons_append, List.isPrefixOf_cons₂, Bool.and_eq_false_iff] at h ⊢
      rcases h with h | h
      · exact Or.inl h
      · exact Or.inr (ih bs (fun hmem => hx (List.mem_cons_of_mem a hmem)) h)

/-- A newline-terminated string ends with a newline. -/
theorem endsWithNL_append_nl (s : String) : endsWithNL (s ++ "\n") = true := by
  simp [endsWithNL, String.data_append, show ("\n" : String).data = ['\n'] from rfl,
    List.getLast?_concat]

/-- The keyboard marker contains no carriage return and no newline. -/
theorem marker_data_props : '\r' ∉ marker.data ∧ '\n' ∉ marker.data := by decide

/-- A marker-free line body stays marker-free after the terminator is
appended. -/
theorem pyStartsWith_marker_append_nl (s : String) (h : pyStartsWith marker s = false) :
    pyStartsWith marker (s ++ "\n") = false := by
  simp only [pyStartsWith, String.data_append, show ("\n" : String).data = ['\n'] from rfl]
  exact isPrefixOf_append_singleton_false marker.data s.data '\n' marker_data_props.2 h

/-- A marker-tagged string starts with the marker. -/
theorem pyStartsWith_marker_self (t : String) : pyStartsWith marker (marker ++ t) = true := by
  simp only [pyStartsWith, String.data_append]
  exact isPrefixOf_self_append marker.data t.data

/-- Stripping the marker from a marker-tagged string. -/
theorem pyDrop_marker (t : String) : pyDrop 6 (marker ++ t) = t := by
  show String.mk (((marker ++ t).data).drop 6) = t
  rw [String.data_append, List.drop_left' (show (marker.data).length = 6 from rfl)]

/-- Dropping the final character of a newline-terminated string. -/
theorem pyDropLast_append_nl (s : String) : pyDropLast (s ++ "\n") = s := by
  show String.mk (((s ++ "\n").data).dropLast) = s
  rw [String.data_append, show ("\n" : String).data = ['\n'] from rfl, List.dropLast_concat]

/-- Evaluation of `Alias.txText` on a carriage-return-free, marker-free
whole line (the network-origin shape). -/
theorem alias_txText_network (dict : AliasDict) (body : String)
    (hcr : '\r' ∉ body.data) (hmk : pyStartsWith marker body = false) :
    Alias.txText dict (body ++ "\n")
      = match aliasLookup dict body with
        | some v => v ++ "\n"
        | none => body ++ "\n" := by
  have hcr2 : '\r' ∉ (body ++ "\n").data := by
    simp only [String.data_append, show ("\n" : String).data = ['\n'] from rfl,
      List.mem_append, List.mem_singleton, not_or]
    exact ⟨hcr, by decide⟩
  simp only [Alias.txText, replaceCRLF_eq_self _ hcr2, endsWithNL_append_nl body,
    pyStartsWith_marker_append_nl body hmk, pyDropLast_append_nl, if_true,
    Bool.false_eq_true, if_false]

/-- Evaluation of `Alias.txText` on a carriage-return-free marker-tagged
line (the keyboard-origin shape). -/
theorem alias_txText_keyboard (dict : AliasDict) (typed : String)
    (hcr : '\r' ∉ typed.data) :
    Alias.txText dict (marker ++ typed ++ "\n")
      = (if typed.data.length ≠ 0 then
           match aliasLookup dict typed with
           | some v => ofChars (List.replicate typed.data.length '\x08') ++ v ++ "\n"
           | none => "\n"
         else "\n") := by
  have hdata : (marker ++ typed ++ "\n").data = marker.data ++ (typed.data ++ ['\n']) := by
    simp [String.data_append, show ("\n" : String).data = ['\n'] from rfl]
  have hcr2 : '\r' ∉ (marker ++ typed ++ "\n").data := by
    rw [hdata]
    simp only [List.mem_append, List.mem_singleton, not_or]
    exact ⟨marker_data_props.1, hcr, by decide⟩
  have hends : endsWithNL (marker ++ typed ++ "\n") = true := endsWithNL_append_nl _
  have hstart : pyStartsWith marker (marker ++ typed ++ "\n") = true := by
    simp only [pyStartsWith, hdata]
    exact isPrefixOf_self_append marker.data (typed.data ++ ['\n'])
  have hdrop : pyDrop 6 (marker ++ typed ++ "\n") = typed ++ "\n" := by
    show String.mk (((marker ++ typed ++ "\n")).data.drop 6) = typed ++ "\n"
    rw [hdata, List.drop_left' (show (marker.data).length = 6 from rfl)]
    show String.mk (typed.data ++ ['\n']) = typed ++ "\n"
    have hd : (typed ++ "\n").data = typed.data ++ ['\n'] := by
      simp [String.data_append, show ("\n" : String).data = ['\n'] from rfl]
    rw [← hd]
  simp only [Alias.txText, replaceCRLF_eq_self _ hcr2, hends, hstart, hdrop,
    pyDropLast_append_nl, if_true]

/-- Full characterisation of the receive-side scan loop: the final match
flag is the old flag or-ed with "some piece matches the original pending
pattern", and the pending pattern is cleared exactly when a piece matched. -/
theorem ttlRxLoop_spec (matcher : String → String → Bool) (lines : List String)
    (aw : String) (m : Bool) :
    (ttlRxLoop matcher lines aw m).2 = (m || lines.any (fun l => matcher aw l))
    ∧ (ttlRxLoop matcher lines aw m).1
        = (if lines.any (fun l => matcher aw l) then "" else aw) := by
  induction lines generalizing aw m with
  | nil => simp [ttlRxLoop]
  | cons line rest ih =>
    by_cases hm : matcher aw line
    · have h1 := (ih "" true).1
      have h2 := (ih "" true).2
      constructor
      · simp [ttlRxLoop, hm, h1]
      · simp [ttlRxLoop, hm, h2]
    · have h1 := (ih aw m).1
      have h2 := (ih aw m).2
      constructor
      · simp [ttlRxLoop, hm, h1]
      · simp [ttlRxLoop, hm, h2]

/-! ## Claim theorems -/

/-- Claim C1: for every configured filter-name sequence, the
receive-direction chain built by `update_transformations` is exactly the
reverse of the transmit-direction chain — literally `.reverse` of the very
same instance list, so every receive entry is one of the transmit
instances (equal `instId`, i.e. the same Python object, not a fresh copy),
the transmit instances themselves being pairwise distinct objects.  Both
chains are produced by this one call, made once from `__init__`. -/
theorem update_transformations_rx_is_reverse (eol : String) (filters : List String) :
    (RemoteTerm.update_transformations eol filters).2
      = (RemoteTerm.update_transformations eol filters).1.reverse
    ∧ (RemoteTerm.update_transformations eol filters).1.length = filters.length + 1
    ∧ (∀ t : TransformInstance,
        t ∈ (RemoteTerm.update_transformations eol filters).2
          ↔ t ∈ (RemoteTerm.update_transformations eol filters).1)
    ∧ ((RemoteTerm.update_transformations eol filters).1.map TransformInstance.instId).Nodup := by
  refine ⟨rfl, ?_, ?_, ?_⟩
  · simp [RemoteTerm.update_transformations]
  · intro t
    simp [RemoteTerm.update_transformations]
  · have : ((RemoteTerm.update_transformations eol filters).1.map TransformInstance.instId)
        = List.range (filters.length + 1) := by
      simp only [RemoteTerm.update_transformations, List.map_map]
      have : (TransformInstance.instId ∘ fun p : Nat × String => TransformInstance.mk p.1 p.2)
          = Prod.fst := rfl
      rw [this, List.enum_map_fst]
      simp
    rw [this]
    exact List.nodup_range _

/-- Claim C7: on the receive path a transform that raises on a fragment is
isolated per call — the exception is caught, a diagnostic is printed, and
the text that was input to the failing transform flows unmodified to the
next transform, so the fold always completes and the stream continues. -/
theorem reader_rx_failure_isolated (t : String → Except String String)
    (rest : List (String → Except String String)) (text e : String)
    (h : t text = Except.error e) :
    RemoteTerm.readerApplyRx (t :: rest) text
      = ((RemoteTerm.readerApplyRx rest text).1,
         ("Unable to handle string: " ++ text ++ " \n" ++ e)
           :: (RemoteTerm.readerApplyRx rest text).2) := by
  simp [RemoteTerm.readerApplyRx, h]

/-- Witness for C7 at a concrete failing transform. -/
theorem reader_rx_failure_isolated_witness :
    RemoteTerm.readerApplyRx
        [fun _ => Except.error "boom", fun s => Except.ok (s ++ "!")] "abc"
      = ("abc!", ["Unable to handle string: abc \nboom"]) := by
  rw [reader_rx_failure_isolated (fun _ => Except.error "boom")
    [fun s => Except.ok (s ++ "!")] "abc" "boom" rfl]
  rfl

/-- Claim C8 counterexample: a transmit fragment containing the line
terminator produces a log write but no flush — `Alias.tx` never flushes,
so "in both directions the log is flushed" fails on the transmit side. -/
theorem alias_tx_no_flush_cex :
    ("a\n" : String).data.contains '\n' = true
    ∧ (Alias.tx [] "a\n").1 = [LogOp.write "a\n"]
    ∧ LogOp.flush ∉ (Alias.tx [] "a\n").1 := by
  refine ⟨by decide, by decide, by decide⟩

/-- Claim C8 (amended): every `rx` fragment is written and the log is
flushed when it contains a newline; every `tx` fragment is written after
transformation, but the transmit side never flushes. -/
theorem alias_log_discipline (dict : AliasDict) (text : String) :
    (Alias.rx text).1
      = LogOp.write text :: (if text.data.contains '\n' then [LogOp.flush] else [])
    ∧ (Alias.rx text).2 = text
    ∧ (Alias.tx dict text).1 = [LogOp.write (Alias.tx dict text).2]
    ∧ LogOp.flush ∉ (Alias.tx dict text).1 := by
  refine ⟨rfl, rfl, rfl, ?_⟩
  simp [Alias.tx]

/-- A matcher instance for concrete tests: the line equals the pattern
(realised by `re.findall` on a fully anchored literal regex). -/
def eqMatcher (pattern line : String) : Bool := pattern == line

/-- Modelled from the spec: the complete lines (text up to a newline,
accumulated across chunks) made available by one receive chunk — every
newline-split piece of the buffer except the trailing one, which is either
the still-incomplete fragment or the empty piece after a chunk-final
newline. -/
def specCompleteLines (s : TeraTermState) (text : String) : List String :=
  let cur := s.cur_line ++ text
  if cur.data.contains '\n' then (splitNL cur).dropLast else []

/-- Claim C6 counterexample: with pending pattern `"X"` (a fully anchored
literal under `eqMatcher`) and chunk `"a\nX"`, the only complete line is
`"a"`, which does not match — yet `rx` sets `regex_match`, because the scan
also evaluates the regex against the incomplete trailing fragment `"X"`
(which stays in the line buffer). -/
theorem ttl_rx_incomplete_fragment_cex :
    (TeraTermCommandLine.rx eqMatcher ⟨"X", "", false⟩ "a\nX").1
      = (⟨"", "X", true⟩ : TeraTermState)
    ∧ specCompleteLines ⟨"X", "", false⟩ "a\nX" = ["a"]
    ∧ eqMatcher "X" "a" = false := by
  refine ⟨by decide, by decide, by decide⟩

/-- Claim C6 (amended): when a pattern is pending and the accumulated
buffer contains a newline, the receive pass evaluates the regex against
every piece of the newline-split buffer — the complete lines and also the
trailing piece (the incomplete fragment, or the empty string when the
chunk ended at a line boundary) — and sets `matched` iff any piece
matches; the chunk itself passes through unchanged. -/
theorem ttl_rx_match_characterization (matcher : String → String → Bool)
    (s : TeraTermState) (text : String) :
    (TeraTermCommandLine.rx matcher s text).2 = text
    ∧ (TeraTermCommandLine.rx matcher s text).1.regex_match
        = (s.regex_match
            || ((s.regex_awaiting != "")
                && (s.cur_line ++ text).data.contains '\n'
                && (splitNL (s.cur_line ++ text)).any
                     (fun l => matcher s.regex_awaiting l))) := by
  unfold TeraTermCommandLine.rx
  cases hc : (s.cur_line ++ text).data.contains '\n' with
  | false =>
    simp only [hc, Bool.false_eq_true, if_false, Bool.and_false, Bool.false_and,
      Bool.or_false]
    exact ⟨trivial, trivial⟩
  | true =>
    by_cases ha : s.regex_awaiting = ""
    · simp only [hc]
      simp [ha]
    · have hb : (s.regex_awaiting != "") = true := bne_iff_ne.mpr ha
      have h := ttlRxLoop_spec matcher (splitNL (s.cur_line ++ text))
        s.regex_awaiting s.regex_match
      simp only [hc]
      simp [ha, hb, h.1]

/-- Claim C2 counterexample: when reading or parsing the configured timeout
raises (`timeout_cfg = none`, e.g. `regex_timeout_sec` missing or not an
integer) and no match is already flagged, `ttl_wait_regex` still returns
empty text but the `except` path skips the clearing assignments: the
pending pattern `"abc"` remains installed, so the WaitState is not clean
after the call. -/
theorem ttl_wait_regex_unclean_cex :
    TeraTermCommandLine.tx ⟨"", "", false⟩ "waitregex \"abc\"\n" none false
      = Except.ok ((⟨"abc", "", false⟩ : TeraTermState), "")
    ∧ (⟨"abc", "", false⟩ : TeraTermState).regex_awaiting ≠ "" := by
  exact ⟨rfl, by decide⟩

/-- Claim C2 (amended): `ttl_wait_regex` returns empty text in every case
and the wait itself leaves the line buffer alone; after a match observed
by the poll loop (including a stale pre-set flag) or a parseable-timeout
wait it clears both WaitState fields; but when reading/parsing the timeout
configuration raises, nothing is cleaned by the wait: with no match during
the first sleep the freshly installed pattern stays pending, and with a
match during the first sleep `regex_match` is left set — stale for the
next wait call. -/
theorem ttl_wait_regex_behavior (s : TeraTermState) (arg : String)
    (cfg : Option Int) (m : Bool) :
    (TeraTermCommandLine.ttl_wait_regex s arg cfg m).2 = ""
    ∧ (TeraTermCommandLine.ttl_wait_regex s arg cfg m).1.cur_line = s.cur_line
    ∧ (s.regex_match = true ∨ cfg ≠ none →
        (TeraTermCommandLine.ttl_wait_regex s arg cfg m).1.regex_awaiting = ""
        ∧ (TeraTermCommandLine.ttl_wait_regex s arg cfg m).1.regex_match = false)
    ∧ (s.regex_match = false → cfg = none → m = false →
        (TeraTermCommandLine.ttl_wait_regex s arg cfg m).1.regex_awaiting
            = ofChars (pySlice1Neg1 (pyStripChars arg.data))
        ∧ (TeraTermCommandLine.ttl_wait_regex s arg cfg m).1.regex_match = false)
    ∧ (s.regex_match = false → cfg = none → m = true →
        (TeraTermCommandLine.ttl_wait_regex s arg cfg m).1.regex_match = true) := by
  cases hm : s.regex_match with
  | true =>
    refine ⟨?_, ?_, ?_, ?_, ?_⟩ <;>
      simp [TeraTermCommandLine.ttl_wait_regex, hm]
  | false =>
    cases cfg with
    | none =>
      cases m with
      | false =>
        refine ⟨?_, ?_, ?_, ?_, ?_⟩ <;>
          simp [TeraTermCommandLine.ttl_wait_regex, hm]
      | true =>
        refine ⟨?_, ?_, ?_, ?_, ?_⟩ <;>
          simp [TeraTermCommandLine.ttl_wait_regex, hm]
    | some n =>
      refine ⟨?_, ?_, ?_, ?_, ?_⟩ <;>
        simp [TeraTermCommandLine.ttl_wait_regex, hm]

/-- Witness for the amended C2 at concrete inputs: a parseable timeout,
no pre-set match. -/
theorem ttl_wait_regex_behavior_witness :
    (TeraTermCommandLine.ttl_wait_regex ⟨"", "old", false⟩ " \"p\" " (some 2) false).1.regex_awaiting = ""
    ∧ (TeraTermCommandLine.ttl_wait_regex ⟨"", "old", false⟩ " \"p\" " (some 2) false).1.regex_match = false
    ∧ (TeraTermCommandLine.ttl_wait_regex ⟨"", "old", false⟩ " \"p\" " (some 2) false).2 = "" := by
  have h := ttl_wait_regex_behavior ⟨"", "old", false⟩ " \"p\" " (some 2) false
  have h3 := h.2.2.1 (Or.inr (by simp))
  exact ⟨h3.1, h3.2, h.1⟩

/-- Claim C5 counterexample: a `pause` fragment whose argument does not
parse as an integer makes `tx` raise; the writer's bare `except` then sets
`alive = False` and re-raises, so the fragment is not merely skipped — the
worker terminates and processes nothing further. -/
theorem writer_pause_malformed_fatal_cex :
    (TeraTermCommandLine.tx ⟨"", "", false⟩ "pause abc\n" (some 5) false).isOk = false
    ∧ RemoteTerm.writer_step true [ttlOnlyTx ⟨"", "", false⟩ (some 5) false] "pause abc\n"
        = (false, none) := by
  exact ⟨rfl, rfl⟩

/-- Claim C5 (amended): script-command failures are handled asymmetrically.
Any fragment that is not `pause`-tagged goes through `tx` without raising
(`waitregex` catches its own failures internally and `sendln` cannot
fail), but a `pause` fragment with an unparsable argument raises out of
`tx`; the writer has no per-fragment handler, so it marks itself dead and
transmits nothing instead of skipping the fragment and continuing. -/
theorem script_malformed_policy (s : TeraTermState) (cfg : Option Int) (m : Bool) :
    (∀ text, pyStartsWith "pause " text = false →
        (TeraTermCommandLine.tx s text cfg m).isOk = true)
    ∧ (∀ arg, pyIntParse arg = none →
        TeraTermCommandLine.tx s ("pause " ++ arg) cfg m
          = Except.error "invalid literal for int() with base 10"
        ∧ RemoteTerm.writer_step true [ttlOnlyTx s cfg m] ("pause " ++ arg)
            = (false, none)) := by
  constructor
  · intro text hp
    unfold TeraTermCommandLine.tx
    split
    · rfl
    · split
      · simp_all
      · split
        · rfl
        · rfl
  · intro arg ha
    have hsend : pyStartsWith "sendln " ("pause " ++ arg) = false := rfl
    have hpause : pyStartsWith "pause " ("pause " ++ arg) = true := by
      simp only [pyStartsWith, String.data_append]
      exact isPrefixOf_self_append _ _
    have hdrop : pyDrop 6 ("pause " ++ arg) = arg := rfl
    have htx : TeraTermCommandLine.tx s ("pause " ++ arg) cfg m
        = Except.error "invalid literal for int() with base 10" := by
      unfold TeraTermCommandLine.tx
      rw [hsend, hpause, hdrop]
      simp [TeraTermCommandLine.ttl_pause, ha, Except.map]
    refine ⟨htx, ?_⟩
    simp [RemoteTerm.writer_step, RemoteTerm.writer_apply_tx, ttlOnlyTx, htx, Except.map]

/-- Witness for the amended C5 at concrete inputs. -/
theorem script_malformed_policy_witness :
    pyStartsWith "pause " "waitregex \"x\"\n" = false
    ∧ (TeraTermCommandLine.tx ⟨"", "", false⟩ "waitregex \"x\"\n" (some 2) false).isOk = true
    ∧ pyIntParse "abc\n" = none
    ∧ RemoteTerm.writer_step true [ttlOnlyTx ⟨"", "", false⟩ (some 2) false] ("pause " ++ "abc\n")
        = (false, none) := by
  refine ⟨by decide, ?_, by decide, ?_⟩
  · exact (script_malformed_policy ⟨"", "", false⟩ (some 2) false).1
      "waitregex \"x\"\n" (by decide)
  · exact ((script_malformed_policy ⟨"", "", false⟩ (some 2) false).2
      "abc\n" (by decide)).2

/-- Claim C3 counterexample: for the table entry `"kieny_x" → "Y"`, the
whole-line network fragment `"kieny_x\n"` starts with the keyboard marker,
so `Alias.tx` takes the keyboard branch, strips the marker, fails the
lookup on `"x"` and emits the bare terminator instead of `"Y\n"`. -/
theorem alias_marker_name_cex :
    aliasLookup [("kieny_x", "Y")] "kieny_x" = some "Y"
    ∧ (Alias.tx [("kieny_x", "Y")] ("kieny_x" ++ "\n")).2 = "\n"
    ∧ ("\n" : String) ≠ "Y" ++ "\n" :=
  ⟨by decide, by decide, by decide⟩

/-- Claim C3 (amended): for every nonempty, CR-free table name that does
not itself start with the keyboard marker, the network-origin fragment
`name ++ "\n"` is transformed into the expansion plus terminator, and the
keyboard-origin fragment `"kieny_" ++ name ++ "\n"` into `len(name)`
backspaces, the expansion and the terminator (for marker-tagged names only
the network shape misbehaves; the keyboard shape needs no such
restriction). -/
theorem alias_resolution_amended (dict : AliasDict) (name v : String)
    (hv : aliasLookup dict name = some v) (hne : name.data ≠ [])
    (hcr : '\r' ∉ name.data) :
    (pyStartsWith marker name = false →
        (Alias.tx dict (name ++ "\n")).2 = v ++ "\n")
    ∧ (Alias.tx dict (marker ++ name ++ "\n")).2
        = ofChars (List.replicate name.data.length '\x08') ++ v ++ "\n" := by
  constructor
  · intro hmk
    show Alias.txText dict (name ++ "\n") = v ++ "\n"
    rw [alias_txText_network dict name hcr hmk, hv]
  · show Alias.txText dict (marker ++ name ++ "\n")
        = ofChars (List.replicate name.data.length '\x08') ++ v ++ "\n"
    have hlen : name.data.length ≠ 0 := fun h0 => hne (List.length_eq_zero.mp h0)
    have hlen' : name.length ≠ 0 := hlen
    rw [alias_txText_keyboard dict name hcr, hv]
    simp [hlen, hlen']

/-- Witness for the amended C3 at the concrete table `ls → dir`. -/
theorem alias_resolution_amended_witness :
    (Alias.tx [("ls", "dir")] ("ls" ++ "\n")).2 = "dir" ++ "\n"
    ∧ (Alias.tx [("ls", "dir")] (marker ++ "ls" ++ "\n")).2
        = ofChars (List.replicate ("ls" : String).data.length '\x08') ++ "dir" ++ "\n" := by
  have h := alias_resolution_amended [("ls", "dir")] "ls" "dir"
    (by decide) (by decide) (by decide)
  exact ⟨h.1 (by decide), h.2⟩

/-- Claim C4 counterexample: an unknown keyboard-origin (marker-tagged)
line is not passed through unchanged — `Alias.tx` emits the bare
terminator. -/
theorem alias_unknown_keyboard_cex :
    aliasLookup [] "abc" = none
    ∧ (Alias.tx [] ("kieny_" ++ "abc" ++ "\n")).2 = "\n"
    ∧ ("\n" : String) ≠ "kieny_" ++ "abc" ++ "\n" :=
  ⟨by decide, by decide, by decide⟩

/-- Claim C4 (amended): for a CR-free line body not in the table, the
network-origin shape passes through unchanged, while the keyboard-origin
(marker-tagged) shape emits the terminator alone. -/
theorem alias_unknown_amended (dict : AliasDict) (body : String)
    (hb : aliasLookup dict body = none) (hcr : '\r' ∉ body.data) :
    (pyStartsWith marker body = false →
        (Alias.tx dict (body ++ "\n")).2 = body ++ "\n")
    ∧ (Alias.tx dict (marker ++ body ++ "\n")).2 = "\n" := by
  constructor
  · intro hmk
    show Alias.txText dict (body ++ "\n") = body ++ "\n"
    rw [alias_txText_network dict body hcr hmk, hb]
  · show Alias.txText dict (marker ++ body ++ "\n") = "\n"
    rw [alias_txText_keyboard dict body hcr, hb]
    simp

/-- Witness for the amended C4 at a concrete unknown body. -/
theorem alias_unknown_amended_witness :
    (Alias.tx [("ls", "dir")] ("pwd" ++ "\n")).2 = "pwd" ++ "\n"
    ∧ (Alias.tx [("ls", "dir")] (marker ++ "pwd" ++ "\n")).2 = "\n" := by
  have h := alias_unknown_amended [("ls", "dir")] "pwd" (by decide) (by decide)
  exact ⟨h.1 (by decide), h.2⟩

/-- Claim C9 counterexample: a network payload that begins with the
keyboard marker produces a fragment that takes the keyboard branch of
`Alias.tx`, not the network branch — with table entry `"kieny_a" → "Z"`
the enqueued fragment yields `"\n"` rather than the network-shape result
`"Z\n"`. -/
theorem socket_marker_payload_cex :
    Alias.txPath (RemoteTerm.socket_input_step "kieny_a").1 = AliasTxPath.keyboard
    ∧ (Alias.tx [("kieny_a", "Z")] (RemoteTerm.socket_input_step "kieny_a").1).2 = "\n"
    ∧ ("\n" : String) ≠ "Z" ++ "\n"
    ∧ (RemoteTerm.socket_input_step "kieny_a").2 = "In queue" :=
  ⟨by decide, by decide, by decide, by decide⟩

/-- Claim C9 (amended): each received message enqueues exactly one
fragment, the decoded payload with one newline appended, and always
replies `"In queue"`; the fragment takes the unmarked whole-line branch of
`Alias.tx` provided the payload is CR-free and does not itself start with
the keyboard marker. -/
theorem socket_input_amended (payload : String) (hcr : '\r' ∉ payload.data) :
    RemoteTerm.socket_input_step payload = (payload ++ "\n", "In queue")
    ∧ (pyStartsWith marker payload = false →
        Alias.txPath (payload ++ "\n") = AliasTxPath.network) := by
  refine ⟨rfl, ?_⟩
  intro hmk
  have hcr2 : '\r' ∉ (payload ++ "\n").data := by
    simp only [String.data_append, show ("\n" : String).data = ['\n'] from rfl,
      List.mem_append, List.mem_singleton, not_or]
    exact ⟨hcr, by decide⟩
  simp only [Alias.txPath, replaceCRLF_eq_self _ hcr2, endsWithNL_append_nl,
    pyStartsWith_marker_append_nl payload hmk, eq_self_iff_true, if_true,
    Bool.false_eq_true, if_false]

/-- Witness for the amended C9 at a concrete payload. -/
theorem socket_input_amended_witness :
    RemoteTerm.socket_input_step "hello" = ("hello" ++ "\n", "In queue")
    ∧ Alias.txPath ("hello" ++ "\n") = AliasTxPath.network := by
  have h := socket_input_amended "hello" (by decide)
  exact ⟨h.1, h.2 (by decide)⟩

/-- Claim C10: outside menu interaction, every keystroke that is not the
menu character, the exit character or a line terminator is enqueued
immediately as its own one-character fragment while also being appended to
the in-progress marker line; a terminator key enqueues the accumulated
marker-tagged line (terminator included) and reseeds the buffer; and on a
newline-terminated marker line `Alias.tx` emits either backspaces plus the
expansion plus the terminator (known nonempty name) or the terminator
alone — never the raw typed characters. -/
theorem keyboard_immediate_enqueue (menuChar exitChar : Char) (dict : AliasDict) :
    (∀ (s : KeyboardState) (key : Char),
        s.menu_active = false → key ≠ menuChar → key ≠ exitChar →
        key ≠ '\r' → key ≠ '\n' →
        RemoteTerm.keyboard_step menuChar exitChar s key
          = (⟨s.command_in ++ ofChars [key], false⟩, [KeyEffect.enqueue (ofChars [key])]))
    ∧ (∀ (s : KeyboardState) (term : Char),
        s.menu_active = false → term ≠ menuChar → term ≠ exitChar →
        (term = '\r' ∨ term = '\n') →
        RemoteTerm.keyboard_step menuChar exitChar s term
          = (⟨"kieny_", false⟩, [KeyEffect.enqueue (s.command_in ++ ofChars [term])]))
    ∧ (∀ typed : String, '\r' ∉ typed.data →
        (Alias.tx dict (marker ++ typed ++ "\n")).2 = "\n"
        ∨ ∃ v, aliasLookup dict typed = some v ∧ typed.data ≠ []
            ∧ (Alias.tx dict (marker ++ typed ++ "\n")).2
                = ofChars (List.replicate typed.data.length '\x08') ++ v ++ "\n") := by
  refine ⟨?_, ?_, ?_⟩
  · intro s key hma h1 h2 h3 h4
    simp [RemoteTerm.keyboard_step, hma, h1, h2, h3, h4]
  · intro s term hma h1 h2 h3
    simp [RemoteTerm.keyboard_step, hma, h1, h2, h3]
  · intro typed hcr
    have hk := alias_txText_keyboard dict typed hcr
    by_cases hne : typed.data = []
    · left
      show Alias.txText dict (marker ++ typed ++ "\n") = "\n"
      rw [hk]
      simp [hne]
    · cases hv : aliasLookup dict typed with
      | none =>
        left
        show Alias.txText dict (marker ++ typed ++ "\n") = "\n"
        rw [hk, hv]
        simp
      | some v =>
        right
        refine ⟨v, rfl, hne, ?_⟩
        have hlen : typed.data.length ≠ 0 := fun h0 => hne (List.length_eq_zero.mp h0)
        have hlen' : typed.length ≠ 0 := hlen
        show Alias.txText dict (marker ++ typed ++ "\n")
            = ofChars (List.replicate typed.data.length '\x08') ++ v ++ "\n"
        rw [hk, hv]
        simp [hlen, hlen']

/-- Witness for C10: typing `l`, then `s`, then Enter, with table
`ls → dir`. -/
theorem keyboard_immediate_enqueue_witness :
    RemoteTerm.keyboard_step '\x14' '\x1d' ⟨"kieny_l", false⟩ 's'
      = (⟨"kieny_ls", false⟩, [KeyEffect.enqueue "s"])
    ∧ RemoteTerm.keyboard_step '\x14' '\x1d' ⟨"kieny_ls", false⟩ '\n'
      = (⟨"kieny_", false⟩, [KeyEffect.enqueue "kieny_ls\n"])
    ∧ ((Alias.tx [("ls", "dir")] (marker ++ "ls" ++ "\n")).2 = "\n"
       ∨ ∃ v, aliasLookup [("ls", "dir")] "ls" = some v ∧ ("ls" : String).data ≠ []
           ∧ (Alias.tx [("ls", "dir")] (marker ++ "ls" ++ "\n")).2
               = ofChars (List.replicate ("ls" : String).data.length '\x08') ++ v ++ "\n") := by
  refine ⟨?_, ?_, ?_⟩
  · have h := (keyboard_immediate_enqueue '\x14' '\x1d' []).1 ⟨"kieny_l", false⟩ 's'
      rfl (by decide) (by decide) (by decide) (by decide)
    rw [h]
    decide
  · have h := (keyboard_immediate_enqueue '\x14' '\x1d' []).2.1 ⟨"kieny_ls", false⟩ '\n'
      rfl (by decide) (by decide) (Or.inr rfl)
    rw [h]
    decide
  · exact (keyboard_immediate_enqueue '\x14' '\x1d' [("ls", "dir")]).2.2 "ls" (by decide)
